import Mathlib

/-!
# gotermux: the command executor and the capability wrappers of `funcio.go`

A shallow embedding of `src/funcio.go`.  A Go `string` and a Go `[]byte` are both
finite byte sequences, so both are modelled by `List UInt8`; the conversion
`string(b)` of a byte slice is the identity.  The effects of the program are
made explicit: every wrapper is a function of an environment (what the child
process and the standard-error stream do) and of a state (the package variable
`RT` and the trace of effects so far), and it either returns or ends the
process (`log.Fatalln`).
-/

namespace Gotermux

/-- A Go `string`: a finite sequence of bytes. -/
abbrev GoString := List UInt8

/-- A Go `[]byte`. -/
abbrev Bytes := List UInt8

/-- The bytes of a string literal of the source (its UTF-8 encoding). -/
def go (s : String) : GoString := s.data.flatMap String.utf8EncodeChar

/-! ## The library functions the wrappers call

Modelled from the documented behaviour of the Go standard library
(`strings`, `strconv`, `fmt`), for the arguments the source passes. -/

/-- `strconv.FormatUint(n, 10)`, also `%d` and `%v` of an unsigned integer:
the decimal digits of `n`. -/
def FormatUint (n : Nat) : GoString := go (Nat.repr n)

/-- `%d` of a signed integer. -/
def FormatInt (i : Int) : GoString :=
  if i < 0 then go "-" ++ FormatUint i.natAbs else FormatUint i.natAbs

/-- `string(r)` for an integer `r`: the UTF-8 encoding of the code point `r`,
and of U+FFFD when `r` is not a valid code point. -/
def runeToString (r : Int) : GoString :=
  if 0 ≤ r ∧ r.toNat.isValidChar then String.utf8EncodeChar (Char.ofNat r.toNat)
  else [0xEF, 0xBF, 0xBD]

/-- `strings.Join(elems, sep)`. -/
def Join : List GoString → GoString → GoString
  | [], _ => []
  | [e], _ => e
  | e :: rest, sep => e ++ rest.flatMap (fun s => sep ++ s)

/-- The loop of `strings.Split` for a non-empty separator: `skip` bytes of a
separator just found remain to be passed over, `cur` is the piece being
collected (reversed). -/
def splitLoop (sep : GoString) : Nat → GoString → GoString → List GoString
  | _, cur, [] => [cur.reverse]
  | skip + 1, cur, _ :: rest => splitLoop sep skip cur rest
  | 0, cur, c :: rest =>
    if sep.isPrefixOf (c :: rest) then cur.reverse :: splitLoop sep (sep.length - 1) [] rest
    else splitLoop sep 0 (c :: cur) rest

/-- `strings.Split(s, sep)` for a non-empty `sep`: the pieces of `s` between the
occurrences of `sep`, found from the left; one piece more than there are
occurrences. -/
def Split (s sep : GoString) : List GoString := splitLoop sep 0 [] s

/-- The loop of `strings.Replace(s, old, new, -1)` for a non-empty `old`. -/
def replaceLoop (old new : GoString) : Nat → GoString → GoString
  | _, [] => []
  | skip + 1, _ :: rest => replaceLoop old new skip rest
  | 0, c :: rest =>
    if old.isPrefixOf (c :: rest) then new ++ replaceLoop old new (old.length - 1) rest
    else c :: replaceLoop old new 0 rest

/-- `strings.Replace(s, old, new, -1)` for a non-empty `old`: every
non-overlapping occurrence of `old`, found from the left, becomes `new`. -/
def Replace (s old new : GoString) : GoString := replaceLoop old new 0 s

/-- `strings.Trim(s, cutset)` for a cutset of ASCII bytes: the leading and the
trailing bytes of `s` that are in `cutset` are removed. -/
def Trim (s cutset : GoString) : GoString :=
  ((s.dropWhile (fun b => decide (b ∈ cutset))).reverse.dropWhile
    (fun b => decide (b ∈ cutset))).reverse

/-- The elements of a slice as `fmt` prints them: a space before every element
but the first. -/
def sprintElems : Bool → List Nat → GoString
  | _, [] => []
  | first, n :: rest => (if first then [] else go " ") ++ FormatUint n ++ sprintElems false rest

/-- `fmt.Sprint(timings)` for a `[]uint`: the elements in decimal, separated by
spaces, in square brackets. -/
def Sprint (timings : List Nat) : GoString := go "[" ++ sprintElems true timings ++ go "]"

/-- `json.Unmarshal(data, &v)` at a target type `T`: the value of `v` afterwards
and the message of the error returned, if any. -/
abbrev Unmarshal (T : Type) := Bytes → T → T × Option GoString

/-! ## Effects -/

/-- Modelled from the spec: the record `TResult` is declared outside
`src/funcio.go`; the spec describes a dialog result as "a text/value field, a
numeric code, and an error string". -/
structure TResult where
  Code : Int
  Text : GoString
  Error : GoString
  deriving DecidableEq, Repr

/-- The zero value `TResult{}`. -/
def TResult.zero : TResult := { Code := 0, Text := [], Error := [] }

/-- What the program does to the outside world, in order. -/
inductive Event where
  /-- `cmd.Run()` of `exec.Command(command, args...)`. -/
  | exec (command : GoString) (args : List GoString)
  /-- `os.Stderr.WriteString(text)`. -/
  | stderr (text : GoString)
  /-- A line written by the `log` package (`log.Println`, `log.Fatalln`). -/
  | log (text : GoString)
  deriving DecidableEq, Repr

/-- The outside world.  Each answer may depend on everything that happened
before (the trace), so successive calls may be answered differently. -/
structure Env where
  /-- The run of a child process: the bytes it wrote to standard output, and
  the message of the error `cmd.Run()` reported, if any. -/
  run : List Event → GoString → List GoString → Bytes × Option GoString
  /-- The outcome of `os.Stderr.WriteString`: the message of its error, if any. -/
  writeStderr : List Event → GoString → Option GoString

/-- The program state: the package variable `RT` (funcio.go:17) and the trace. -/
structure State where
  RT : TResult
  trace : List Event
  deriving DecidableEq, Repr

/-- The state at program start: `RT = TResult{}`, nothing has happened. -/
def State.init : State := { RT := TResult.zero, trace := [] }

/-- How a call ends: it returns a value, or the process exits (`os.Exit(1)`,
reached through `log.Fatalln`). -/
inductive Res (α : Type) where
  | ret (a : α) (s : State)
  | exit (s : State)
  deriving DecidableEq, Repr

/-- A computation of the program. -/
abbrev M (α : Type) := Env → State → Res α

/-- Sequencing: a process that has exited runs nothing further. -/
def M.bind {α β : Type} (m : M α) (f : α → M β) : M β := fun env s =>
  match m env s with
  | .ret a s1 => f a env s1
  | .exit s1 => .exit s1

/-- Returning a value leaves the state alone. -/
def M.pure {α : Type} (a : α) : M α := fun _ s => .ret a s

instance : Monad M where
  pure := M.pure
  bind := M.bind

/-- Append an event to the trace. -/
def emit (e : Event) : M Unit := fun _ s =>
  .ret () { s with trace := s.trace ++ [e] }

/-- `log.Println(text)`. -/
def logPrintln (text : GoString) : M Unit := emit (.log text)

/-- `log.Fatalln(text)`: `Println` followed by `os.Exit(1)`. -/
def logFatalln {α : Type} (text : GoString) : M α := fun _ s =>
  .exit { s with trace := s.trace ++ [.log text] }

/-- `cmd.Run()` with standard output captured in a buffer. -/
def cmdRun (command : GoString) (args : List GoString) :
    M (Bytes × Option GoString) := fun env s =>
  .ret (env.run s.trace command args) { s with trace := s.trace ++ [.exec command args] }

/-- `os.Stderr.WriteString(text)`. -/
def stderrWriteString (text : GoString) : M (Option GoString) := fun env s =>
  .ret (env.writeStderr s.trace text) { s with trace := s.trace ++ [.stderr text] }

/-- `ExecAndListen` (funcio.go:388). -/
def ExecAndListen (command : GoString) (args : List GoString) : M Bytes := do
  let (cmdOutput, err) ← cmdRun command args
  match err with
  | some e =>
    match (← stderrWriteString e) with
    | some e2 =>
      logFatalln (go "I really don't know how you done this. But you did. " ++ e2)
    | none => pure ()
  | none => pure ()
  return cmdOutput

/-! ## The input records

The records are declared outside `src/funcio.go`; each is modelled with the
fields `funcio.go` reads from it. -/

/-- Modelled from the spec: input of `TermuxDialogConfirm` (fields read at funcio.go:47-48). -/
structure TDialogConfirm where
  Hint : GoString
  Title : GoString
  deriving DecidableEq, Repr

/-- Modelled from the spec: input of `TermuxDialogCheckbox` (fields read at funcio.go:59-63). -/
structure TDialogCheckbox where
  Values : List GoString
  Title : GoString
  deriving DecidableEq, Repr

/-- Modelled from the spec: input of `TermuxDialogCounter` (fields read at funcio.go:76-80);
the three numbers are printed with `%d`. -/
structure TDialogCounter where
  Min : Int
  Max : Int
  Start : Int
  Title : GoString
  deriving DecidableEq, Repr

/-- Modelled from the spec: input of `TermuxDialogRadio` (fields read at funcio.go:95-99). -/
structure TDialogRadio where
  Values : List GoString
  Title : GoString
  deriving DecidableEq, Repr

/-- Modelled from the spec: input of `TermuxDialogSheet` (fields read at funcio.go:114-118). -/
structure TDialogSheet where
  Values : List GoString
  Title : GoString
  deriving DecidableEq, Repr

/-- Modelled from the spec: input of `TermuxDialogSpinner` (fields read at funcio.go:131-135). -/
structure TDialogSpinner where
  Values : List GoString
  Title : GoString
  deriving DecidableEq, Repr

/-- Modelled from the spec: input of `TermuxDialogSpeech` (fields read at funcio.go:148-149). -/
structure TDialogSpeech where
  Hint : GoString
  Title : GoString
  deriving DecidableEq, Repr

/-- Modelled from the spec: input of `TermuxDialogText` (fields read at funcio.go:160-174),
with the "multi-line" and "numeric input" options. -/
structure TDialogText where
  Hint : GoString
  Title : GoString
  MultipleLine : Bool
  NumberInput : Bool
  deriving DecidableEq, Repr

/-- Modelled from the spec: input of `TermuxDialogTime` (field read at funcio.go:192). -/
structure TDialogTime where
  Title : GoString
  deriving DecidableEq, Repr

/-- Modelled from the spec: input of `TermuxClipboardSet` (field read at funcio.go:233-235). -/
structure TClipboard where
  Text : GoString
  deriving DecidableEq, Repr

/-- Modelled from the spec: input of `TermuxLocation` (fields read at funcio.go:289-290). -/
structure TLocation where
  Provider : GoString
  Request : GoString
  deriving DecidableEq, Repr

/-- `ShareAction` (funcio.go:23): a `uint8`. -/
abbrev ShareAction := Fin 256

/-- `TShareView` (funcio.go:27). -/
def TShareView : ShareAction := 0

/-- `TShareEdit` (funcio.go:28). -/
def TShareEdit : ShareAction := 1

/-- `TShareSend` (funcio.go:29). -/
def TShareSend : ShareAction := 2

/-- Modelled from the spec: input of `TermuxShare` (fields read at funcio.go:351-368). -/
structure TShare where
  Action : ShareAction
  Default : Bool
  Title : GoString
  deriving DecidableEq, Repr

/-- Modelled from the spec: input of `TermuxVibrate` (fields read at funcio.go:376-378);
`Duration` is an integer, the only kind of number `string(t.Duration)` accepts. -/
structure TVibrate where
  Duration : Int
  SilentModeIgnore : Bool
  deriving DecidableEq, Repr

/-! ## The wrappers -/

/-- `TD` (funcio.go:16). -/
def TD : GoString := go "termux-dialog"

/-- `json.Unmarshal(executed, &RT)`: decodes into the package variable `RT`. -/
def unmarshalRT (unmarshal : Unmarshal TResult) (executed : Bytes) : M (Option GoString) :=
  fun _ s => .ret (unmarshal executed s.RT).2 { s with RT := (unmarshal executed s.RT).1 }

/-- Reads the package variable `RT` (`return RT`). -/
def readRT : M TResult := fun _ s => .ret s.RT s

/-- `TermuxDialog` (funcio.go:33). -/
def TermuxDialog (unmarshal : Unmarshal TResult) (title : GoString) : M TResult := do
  let executed ← ExecAndListen TD [go "-t", title]
  let err ← unmarshalRT unmarshal executed
  match err with
  | some e => logPrintln e
  | none => pure ()
  readRT

/-- `TermuxDialogConfirm` (funcio.go:44). -/
def TermuxDialogConfirm (unmarshal : Unmarshal TResult) (td : TDialogConfirm) : M TResult := do
  let executed ← ExecAndListen TD [go "confirm", go "-i", td.Hint, go "-t", td.Title]
  let err ← unmarshalRT unmarshal executed
  match err with
  | some e => logPrintln e
  | none => pure ()
  readRT

/-- `TermuxDialogCheckbox` (funcio.go:58). -/
def TermuxDialogCheckbox (unmarshal : Unmarshal TResult) (td : TDialogCheckbox) : M TResult := do
  let values := Join td.Values (go ",")
  let executed ← ExecAndListen TD [go "checkbox", go "-v", values, go "-t", td.Title]
  let err ← unmarshalRT unmarshal executed
  match err with
  | some e => logPrintln e
  | none => pure ()
  readRT

/-- `TermuxDialogCounter` (funcio.go:75). -/
def TermuxDialogCounter (unmarshal : Unmarshal TResult) (td : TDialogCounter) : M TResult := do
  let values := FormatInt td.Min ++ go "," ++ FormatInt td.Max ++ go "," ++ FormatInt td.Start
  let executed ← ExecAndListen TD [go "counter", go "-r", values, go "-t", td.Title]
  let err ← unmarshalRT unmarshal executed
  match err with
  | some e => logPrintln e
  | none => pure ()
  readRT

/-- `TermuxDialogRadio` (funcio.go:94). -/
def TermuxDialogRadio (unmarshal : Unmarshal TResult) (td : TDialogRadio) : M TResult := do
  let values := Join td.Values (go ",")
  let executed ← ExecAndListen TD [go "radio", go "-v", values, go "-t", td.Title]
  let err ← unmarshalRT unmarshal executed
  match err with
  | some e => logPrintln e
  | none => pure ()
  readRT

/-- `TermuxDialogSheet` (funcio.go:113). -/
def TermuxDialogSheet (unmarshal : Unmarshal TResult) (td : TDialogSheet) : M TResult := do
  let values := Join td.Values (go ",")
  let executed ← ExecAndListen TD [go "sheet", go "-v", values, go "-t", td.Title]
  let err ← unmarshalRT unmarshal executed
  match err with
  | some e => logPrintln e
  | none => pure ()
  readRT

/-- `TermuxDialogSpinner` (funcio.go:130). -/
def TermuxDialogSpinner (unmarshal : Unmarshal TResult) (td : TDialogSpinner) : M TResult := do
  let values := Join td.Values (go ",")
  let executed ← ExecAndListen TD [go "spinner", go "-v", values, go "-t", td.Title]
  let err ← unmarshalRT unmarshal executed
  match err with
  | some e => logPrintln e
  | none => pure ()
  readRT

/-- `TermuxDialogSpeech` (funcio.go:145). -/
def TermuxDialogSpeech (unmarshal : Unmarshal TResult) (td : TDialogSpeech) : M TResult := do
  let executed ← ExecAndListen TD [go "speech", go "-i", td.Hint, go "-t", td.Title]
  let err ← unmarshalRT unmarshal executed
  match err with
  | some e => logPrintln e
  | none => pure ()
  readRT

/-- The argument list `TermuxDialogText` builds (funcio.go:164-176). -/
def TermuxDialogText.command (td : TDialogText) : List GoString :=
  let command := [go "text", go "-i", td.Hint, go "-t", td.Title]
  let command := if td.MultipleLine == true then command ++ [go "-m"] else command
  let command := if td.NumberInput == true then command ++ [go "-n"] else command
  command

/-- `TermuxDialogText` (funcio.go:159). -/
def TermuxDialogText (unmarshal : Unmarshal TResult) (td : TDialogText) : M TResult := do
  if td.MultipleLine == true && td.NumberInput == true then
    logFatalln
      (go "Cannot use multilines with input numbers (see wiki.termux.com/wiki/Termux-dialog)")
  let executed ← ExecAndListen TD (TermuxDialogText.command td)
  let err ← unmarshalRT unmarshal executed
  match err with
  | some e => logPrintln e
  | none => pure ()
  readRT

/-- `TermuxDialogTime` (funcio.go:189). -/
def TermuxDialogTime (unmarshal : Unmarshal TResult) (td : TDialogTime) : M TResult := do
  let executed ← ExecAndListen TD [go "time", go "-t", td.Title]
  let err ← unmarshalRT unmarshal executed
  match err with
  | some e => logPrintln e
  | none => pure ()
  readRT

/-- `TermuxBatteryStatus` (funcio.go:203); `TBattery` is declared outside
`funcio.go`, `default` stands for `TBattery{}`. -/
def TermuxBatteryStatus {TBattery : Type} [Inhabited TBattery]
    (unmarshal : Unmarshal TBattery) : M TBattery := do
  let t : TBattery := default
  let status ← ExecAndListen (go "termux-battery-status") []
  let (t, err) := unmarshal status t
  match err with
  | some e => logFatalln e
  | none => pure ()
  return t

/-- `TermuxBrightness` (funcio.go:218); `val` is a `uint8`. -/
def TermuxBrightness (val : Fin 256) : M Bytes := do
  let u := FormatUint val.val
  let executed ← ExecAndListen (go "termux-brightness") [u]
  return executed

/-- `TermuxClipboardGet` (funcio.go:226). -/
def TermuxClipboardGet : M GoString := do
  let executed ← ExecAndListen (go "termux-clipboard-get") []
  return executed

/-- `TermuxClipboardSet` (funcio.go:232). -/
def TermuxClipboardSet (clip : TClipboard) : M Unit := do
  if clip.Text.length > 0 then
    let _ ← ExecAndListen (go "termux-clipboard-set") [clip.Text]
  else
    logPrintln (go "Clipboard is empty!")

/-- `TermuxContactList` (funcio.go:243); `TCalls` is declared outside
`funcio.go`, `default` stands for `TCalls{}`. -/
def TermuxContactList {TCalls : Type} [Inhabited TCalls]
    (unmarshal : Unmarshal TCalls) : M TCalls := do
  let c : TCalls := default
  let executed ← ExecAndListen (go "termux-contact-list") []
  let (c, err) := unmarshal executed c
  match err with
  | some e => logPrintln e
  | none => pure ()
  return c

/-- `TermuxDownload` (funcio.go:256). -/
def TermuxDownload (description title : GoString) : M Unit := do
  let _ ← ExecAndListen (go "termux-download") [go "-d", description, go "-t", title]

/-- `TermuxInfraredFrequencies` (funcio.go:264). -/
def TermuxInfraredFrequencies : M GoString := do
  let executed ← ExecAndListen (go "termux-infrared-frequencies") []
  return executed

/-- The value `TermuxInfraredTransmit` passes after `-f` (funcio.go:277). -/
def TermuxInfraredTransmit.values (timings : List Nat) : GoString :=
  Trim (Replace (Sprint timings) (go " ") (go ",")) (go "[]")

/-- `TermuxInfraredTransmit` (funcio.go:270); `timings` is a `[]uint`. -/
def TermuxInfraredTransmit (timings : List Nat) : M GoString := do
  let values := TermuxInfraredTransmit.values timings
  let executed ← ExecAndListen (go "termux-infrared-transmit") [go "-f", values]
  return executed

/-- `TermuxLocation` (funcio.go:286); `TLocationResult` is declared outside
`funcio.go`, `default` stands for `TLocationResult{}`. -/
def TermuxLocation {TLocationResult : Type} [Inhabited TLocationResult]
    (unmarshal : Unmarshal TLocationResult) (location : TLocation) : M TLocationResult := do
  let result : TLocationResult := default
  let executed ← ExecAndListen (go "termux-location")
    [go "-p", location.Provider, go "-r", location.Request]
  let (result, err) := unmarshal executed result
  match err with
  | some e => logPrintln e
  | none => pure ()
  return result

/-- `TermuxMediaPlayerPlayFile` (funcio.go:300). -/
def TermuxMediaPlayerPlayFile (path : GoString) : M Unit := do
  let _ ← ExecAndListen (go "termux-media-player") [go "play", path]

/-- `TermuxMediaPlayerResume` (funcio.go:307). -/
def TermuxMediaPlayerResume : M Unit := do
  let _ ← ExecAndListen (go "termux-media-player") [go "play"]

/-- `TermuxMediaPlayerStop` (funcio.go:312). -/
def TermuxMediaPlayerStop : M Unit := do
  let _ ← ExecAndListen (go "termux-media-player") [go "stop"]

/-- `TermuxMediaPlayerPause` (funcio.go:317). -/
def TermuxMediaPlayerPause : M Unit := do
  let _ ← ExecAndListen (go "termux-media-player") [go "pause"]

/-- `TermuxMediaPlayerInfo` (funcio.go:322). -/
def TermuxMediaPlayerInfo : M GoString := do
  let executed ← ExecAndListen (go "termux-media-player") [go "info"]
  return executed

/-- The argument list `TermuxMediaPlayerScan` builds (funcio.go:334-341). -/
def TermuxMediaPlayerScan.command (recur verbose : Bool) : List GoString :=
  let command : List GoString := []
  let command := if recur == true then command ++ [go "-r"] else command
  let command := if verbose == true then command ++ [go "-v"] else command
  command

/-- `TermuxMediaPlayerScan` (funcio.go:332). -/
def TermuxMediaPlayerScan (recur verbose : Bool) : M GoString := do
  let executed ← ExecAndListen (go "termux-media-scan") (TermuxMediaPlayerScan.command recur verbose)
  return executed

/-- The argument list `TermuxShare` builds (funcio.go:349-369).  In the `switch`
the `default:` clause is empty (a Go clause does not fall through into the next
one), so an action other than the three constants appends nothing. -/
def TermuxShare.command (t : TShare) : List GoString :=
  let command := [go "-a"]
  let command :=
    if t.Action = TShareView then command ++ [go "view"]
    else if t.Action = TShareEdit then command ++ [go "edit"]
    else if t.Action = TShareSend then command ++ [go "send"]
    else command
  let command := if t.Default == true then command ++ [go "-d"] else command
  let command := if t.Title ≠ [] then command ++ [go "-t", t.Title] else command
  command

/-- `TermuxShare` (funcio.go:348). -/
def TermuxShare (t : TShare) : M GoString := do
  let executed ← ExecAndListen (go "termux-share") (TermuxShare.command t)
  return executed

/-- The argument list `TermuxVibrate` builds (funcio.go:376-380). -/
def TermuxVibrate.command (t : TVibrate) : List GoString :=
  let command := [go "-t", runeToString t.Duration]
  let command := if t.SilentModeIgnore == true then command ++ [go "-f"] else command
  command

/-- `TermuxVibrate` (funcio.go:375). -/
def TermuxVibrate (t : TVibrate) : M Unit := do
  let _ ← ExecAndListen (go "termux-vibrate") (TermuxVibrate.command t)

/-! ## The wrappers as one family -/

/-- A call of a public wrapper, with its input. -/
inductive Call where
  | Dialog (title : GoString)
  | DialogConfirm (td : TDialogConfirm)
  | DialogCheckbox (td : TDialogCheckbox)
  | DialogCounter (td : TDialogCounter)
  | DialogRadio (td : TDialogRadio)
  | DialogSheet (td : TDialogSheet)
  | DialogSpinner (td : TDialogSpinner)
  | DialogSpeech (td : TDialogSpeech)
  | DialogText (td : TDialogText)
  | DialogTime (td : TDialogTime)
  | BatteryStatus
  | Brightness (val : Fin 256)
  | ClipboardGet
  | ClipboardSet (clip : TClipboard)
  | ContactList
  | Download (description title : GoString)
  | InfraredFrequencies
  | InfraredTransmit (timings : List Nat)
  | Location (location : TLocation)
  | MediaPlayerPlayFile (path : GoString)
  | MediaPlayerResume
  | MediaPlayerStop
  | MediaPlayerPause
  | MediaPlayerInfo
  | MediaPlayerScan (recur verbose : Bool)
  | Share (t : TShare)
  | Vibrate (t : TVibrate)
  deriving DecidableEq, Repr

/-- The behaviour of `json.Unmarshal` at the four target types of the wrappers. -/
structure Decoders (TBattery TCalls TLocationResult : Type) where
  result : Unmarshal TResult
  battery : Unmarshal TBattery
  calls : Unmarshal TCalls
  location : Unmarshal TLocationResult

/-- Runs a computation for its effects, dropping the value it returns. -/
def M.void {α : Type} (m : M α) : M Unit := m.bind (fun _ => M.pure ())

/-- Makes the call: runs the wrapper on its input. -/
def Call.run {TBattery TCalls TLocationResult : Type}
    [Inhabited TBattery] [Inhabited TCalls] [Inhabited TLocationResult]
    (J : Decoders TBattery TCalls TLocationResult) : Call → M Unit
  | .Dialog title => (TermuxDialog J.result title).void
  | .DialogConfirm td => (TermuxDialogConfirm J.result td).void
  | .DialogCheckbox td => (TermuxDialogCheckbox J.result td).void
  | .DialogCounter td => (TermuxDialogCounter J.result td).void
  | .DialogRadio td => (TermuxDialogRadio J.result td).void
  | .DialogSheet td => (TermuxDialogSheet J.result td).void
  | .DialogSpinner td => (TermuxDialogSpinner J.result td).void
  | .DialogSpeech td => (TermuxDialogSpeech J.result td).void
  | .DialogText td => (TermuxDialogText J.result td).void
  | .DialogTime td => (TermuxDialogTime J.result td).void
  | .BatteryStatus => (TermuxBatteryStatus J.battery).void
  | .Brightness val => (TermuxBrightness val).void
  | .ClipboardGet => TermuxClipboardGet.void
  | .ClipboardSet clip => TermuxClipboardSet clip
  | .ContactList => (TermuxContactList J.calls).void
  | .Download description title => TermuxDownload description title
  | .InfraredFrequencies => TermuxInfraredFrequencies.void
  | .InfraredTransmit timings => (TermuxInfraredTransmit timings).void
  | .Location location => (TermuxLocation J.location location).void
  | .MediaPlayerPlayFile path => TermuxMediaPlayerPlayFile path
  | .MediaPlayerResume => TermuxMediaPlayerResume
  | .MediaPlayerStop => TermuxMediaPlayerStop
  | .MediaPlayerPause => TermuxMediaPlayerPause
  | .MediaPlayerInfo => TermuxMediaPlayerInfo.void
  | .MediaPlayerScan recur verbose => (TermuxMediaPlayerScan recur verbose).void
  | .Share t => (TermuxShare t).void
  | .Vibrate t => TermuxVibrate t

/-- The executable name written in the source of each wrapper. -/
def Call.executable : Call → GoString
  | .Dialog _ | .DialogConfirm _ | .DialogCheckbox _ | .DialogCounter _ | .DialogRadio _
  | .DialogSheet _ | .DialogSpinner _ | .DialogSpeech _ | .DialogText _ | .DialogTime _ => TD
  | .BatteryStatus => go "termux-battery-status"
  | .Brightness _ => go "termux-brightness"
  | .ClipboardGet => go "termux-clipboard-get"
  | .ClipboardSet _ => go "termux-clipboard-set"
  | .ContactList => go "termux-contact-list"
  | .Download _ _ => go "termux-download"
  | .InfraredFrequencies => go "termux-infrared-frequencies"
  | .InfraredTransmit _ => go "termux-infrared-transmit"
  | .Location _ => go "termux-location"
  | .MediaPlayerPlayFile _ | .MediaPlayerResume | .MediaPlayerStop | .MediaPlayerPause
  | .MediaPlayerInfo => go "termux-media-player"
  | .MediaPlayerScan _ _ => go "termux-media-scan"
  | .Share _ => go "termux-share"
  | .Vibrate _ => go "termux-vibrate"

/-- The argument list written in the source of each wrapper. -/
def Call.args : Call → List GoString
  | .Dialog title => [go "-t", title]
  | .DialogConfirm td => [go "confirm", go "-i", td.Hint, go "-t", td.Title]
  | .DialogCheckbox td => [go "checkbox", go "-v", Join td.Values (go ","), go "-t", td.Title]
  | .DialogCounter td =>
    [go "counter", go "-r",
      FormatInt td.Min ++ go "," ++ FormatInt td.Max ++ go "," ++ FormatInt td.Start,
      go "-t", td.Title]
  | .DialogRadio td => [go "radio", go "-v", Join td.Values (go ","), go "-t", td.Title]
  | .DialogSheet td => [go "sheet", go "-v", Join td.Values (go ","), go "-t", td.Title]
  | .DialogSpinner td => [go "spinner", go "-v", Join td.Values (go ","), go "-t", td.Title]
  | .DialogSpeech td => [go "speech", go "-i", td.Hint, go "-t", td.Title]
  | .DialogText td => TermuxDialogText.command td
  | .DialogTime td => [go "time", go "-t", td.Title]
  | .BatteryStatus => []
  | .Brightness val => [FormatUint val.val]
  | .ClipboardGet => []
  | .ClipboardSet clip => [clip.Text]
  | .ContactList => []
  | .Download description title => [go "-d", description, go "-t", title]
  | .InfraredFrequencies => []
  | .InfraredTransmit timings => [go "-f", TermuxInfraredTransmit.values timings]
  | .Location location => [go "-p", location.Provider, go "-r", location.Request]
  | .MediaPlayerPlayFile path => [go "play", path]
  | .MediaPlayerResume => [go "play"]
  | .MediaPlayerStop => [go "stop"]
  | .MediaPlayerPause => [go "pause"]
  | .MediaPlayerInfo => [go "info"]
  | .MediaPlayerScan recur verbose => TermuxMediaPlayerScan.command recur verbose
  | .Share t => TermuxShare.command t
  | .Vibrate t => TermuxVibrate.command t

/-- The log line of a decode: the error, if there is one. -/
def decodeLog : Option GoString → List Event
  | some e => [.log e]
  | none => []

/-- A dialog wrapper once its argument list is built: the run, the decode into
`RT`, the log line of a decode error, and `RT` returned. -/
def dialogCall (unmarshal : Unmarshal TResult) (args : List GoString) : M TResult :=
  fun env s =>
    match ExecAndListen TD args env s with
    | .exit s1 => .exit s1
    | .ret out s1 =>
      .ret (unmarshal out s1.RT).1
        { RT := (unmarshal out s1.RT).1,
          trace := s1.trace ++ decodeLog (unmarshal out s1.RT).2 }

/-- A wrapper that decodes into a fresh record and logs a decode error with
`log.Println`: the run, the decode, the log line, and the record returned. -/
def localCall {T : Type} [Inhabited T] (unmarshal : Unmarshal T) (command : GoString)
    (args : List GoString) : M T :=
  fun env s =>
    match ExecAndListen command args env s with
    | .exit s1 => .exit s1
    | .ret out s1 =>
      .ret (unmarshal out default).1
        { s1 with trace := s1.trace ++ decodeLog (unmarshal out default).2 }

/-- The runs of child processes recorded in a trace, in order. -/
def execCalls : List Event → List (GoString × List GoString)
  | [] => []
  | .exec command args :: rest => (command, args) :: execCalls rest
  | _ :: rest => execCalls rest

/-- The input `TermuxDialogText` rejects: both options set. -/
def Call.conflicting : Call → Bool
  | .DialogText td => td.MultipleLine && td.NumberInput
  | _ => false

/-- The input on which `TermuxClipboardSet` runs nothing: an empty text. -/
def Call.emptyClipboard : Call → Bool
  | .ClipboardSet clip => clip.Text.isEmpty
  | _ => false

/-! ## A decoder for sample runs

The wrappers take the behaviour of `json.Unmarshal` as an argument, and the
general theorems hold for every such behaviour.  The sample runs need one to
compute with: a decoder for flat JSON objects whose members are strings
without escapes and integers.  Like `encoding/json` it checks the syntax of the
whole input before it stores anything, so on bytes that are not JSON the target
is left as it was; it matches keys to fields without regard to case; a member
of the wrong type is skipped and reported.  It rejects JSON outside this
fragment, which `encoding/json` would accept. -/

/-- A member value of the fragment. -/
inductive JValue where
  | str (s : Bytes)
  | int (i : Int)
  deriving DecidableEq, Repr

/-- JSON whitespace: space, tab, line feed, carriage return. -/
def isJSONSpace (b : UInt8) : Bool := b = 0x20 || b = 0x09 || b = 0x0A || b = 0x0D

/-- An ASCII decimal digit. -/
def isDigitByte (b : UInt8) : Bool := decide (0x30 ≤ b) && decide (b ≤ 0x39)

/-- The body of a string after its opening quote, up to the closing quote, and
what follows; no escapes and no control bytes. -/
def scanString : Bytes → Option (Bytes × Bytes)
  | [] => none
  | b :: rest =>
    if b = 0x22 then some ([], rest)
    else if b = 0x5C ∨ b < 0x20 then none
    else (scanString rest).map (fun r => (b :: r.1, r.2))

/-- The number written by a run of digits. -/
def digitsValue (ds : Bytes) : Nat := ds.foldl (fun n b => 10 * n + (b.toNat - 0x30)) 0

/-- An integer (`-`? then `0` or a digit run without leading zero) of the range of
a 64-bit `int`, and what follows. -/
def scanInt (data : Bytes) : Option (Int × Bytes) :=
  let neg := data.head? = some 0x2D
  let body := if neg then data.drop 1 else data
  let ds := body.takeWhile isDigitByte
  let rest := body.dropWhile isDigitByte
  if ds = [] ∨ (ds.head? = some 0x30 ∧ ds.length > 1) then none
  else if rest.head? = some 0x2E ∨ rest.head? = some 0x65 ∨ rest.head? = some 0x45 then none
  else
    let i : Int := if neg then -(digitsValue ds : Int) else (digitsValue ds : Int)
    if -(2 : Int) ^ 63 ≤ i ∧ i < (2 : Int) ^ 63 then some (i, rest) else none

/-- A member value and what follows. -/
def scanValue : Bytes → Option (JValue × Bytes)
  | [] => none
  | b :: rest =>
    if b = 0x22 then (scanString rest).map (fun r => (JValue.str r.1, r.2))
    else (scanInt (b :: rest)).map (fun r => (JValue.int r.1, r.2))

/-- The members of an object from the first key on, up to the closing brace;
`fuel` bounds the number of members. -/
def scanMembers : Nat → Bytes → Option (List (Bytes × JValue) × Bytes)
  | 0, _ => none
  | fuel + 1, data =>
    match data.dropWhile isJSONSpace with
    | 0x22 :: afterQuote =>
      match scanString afterQuote with
      | none => none
      | some (key, afterKey) =>
        match afterKey.dropWhile isJSONSpace with
        | 0x3A :: afterColon =>
          match scanValue (afterColon.dropWhile isJSONSpace) with
          | none => none
          | some (value, afterValue) =>
            match afterValue.dropWhile isJSONSpace with
            | 0x7D :: rest => some ([(key, value)], rest)
            | 0x2C :: rest =>
              (scanMembers fuel rest).map (fun r => ((key, value) :: r.1, r.2))
            | _ => none
        | _ => none
    | _ => none

/-- The members of the flat object that is the whole of `data`, if it is one. -/
def scanObject (data : Bytes) : Option (List (Bytes × JValue)) :=
  match data.dropWhile isJSONSpace with
  | 0x7B :: afterBrace =>
    match afterBrace.dropWhile isJSONSpace with
    | 0x7D :: rest => if rest.dropWhile isJSONSpace = [] then some [] else none
    | body =>
      match scanMembers data.length body with
      | some (members, rest) => if rest.dropWhile isJSONSpace = [] then some members else none
      | none => none
  | _ => none

/-- ASCII lower case. -/
def lowerASCII (s : Bytes) : Bytes :=
  s.map (fun b => if 0x41 ≤ b ∧ b ≤ 0x5A then b + 0x20 else b)

/-- The message of the syntax error for bytes that are not a flat object.  For
input that is empty after white space, and for a first byte that is printable
ASCII, is no quote and cannot begin a JSON value, it is the message of
`encoding/json`; for any other input it only says that the input was rejected. -/
def syntaxErrorText (data : Bytes) : GoString :=
  match data.dropWhile isJSONSpace with
  | [] => go "unexpected end of JSON input"
  | b :: _ =>
    if b ∈ go "\x7b[\"-0123456789tfn" ∨ b = 0x27 ∨ b < 0x21 ∨ 0x7E < b then
      go "invalid JSON input"
    else go "invalid character \x27" ++ [b] ++ go "\x27 looking for beginning of value"

/-- Decoding into a record: `store v key value` is the record after the member
is stored, or `none` when the field named by `key` has another type; a key that
names no field leaves the record as it is. -/
def decodeWith {T : Type} (store : T → Bytes → JValue → Option T) : Unmarshal T :=
  fun data v =>
    match scanObject data with
    | none => (v, some (syntaxErrorText data))
    | some members =>
      members.foldl
        (fun (acc : T × Option GoString) m =>
          match store acc.1 (lowerASCII m.1) m.2 with
          | some v1 => (v1, acc.2)
          | none => (acc.1, acc.2.or (some (go "json: cannot unmarshal value into Go struct field"))))
        (v, none)

/-- Storing a member in a `TResult`. -/
def TResult.store (v : TResult) (key : Bytes) (value : JValue) : Option TResult :=
  if key = go "code" then
    match value with
    | .int i => some { v with Code := i }
    | .str _ => none
  else if key = go "text" then
    match value with
    | .str t => some { v with Text := t }
    | .int _ => none
  else if key = go "error" then
    match value with
    | .str t => some { v with Error := t }
    | .int _ => none
  else some v

/-- The sample decoder at `TResult`. -/
def unmarshalTResult : Unmarshal TResult := decodeWith TResult.store

/-- A stand-in for the records `TBattery`, `TCalls` and `TLocationResult`
(declared outside `funcio.go`) where a sample run needs a concrete decoding
target: a record of one number. -/
structure Reading where
  Percentage : Int
  deriving DecidableEq, Repr, Inhabited

/-- Storing a member in a `Reading`. -/
def Reading.store (v : Reading) (key : Bytes) (value : JValue) : Option Reading :=
  if key = go "percentage" then
    match value with
    | .int i => some { v with Percentage := i }
    | .str _ => none
  else some v

/-- The sample decoder at `Reading`. -/
def unmarshalReading : Unmarshal Reading := decodeWith Reading.store

/-- The sample decoders together. -/
def sampleDecoders : Decoders Reading Reading Reading :=
  { result := unmarshalTResult, battery := unmarshalReading,
    calls := unmarshalReading, location := unmarshalReading }

/-! ## Sample environments -/

/-- A child that writes `hello\n` and succeeds. -/
def envEcho : Env :=
  { run := fun _ _ _ => (go "hello\n", none), writeStderr := fun _ _ => none }

/-- A child that writes `partial` and fails; standard error accepts the diagnostic. -/
def envFail : Env :=
  { run := fun _ _ _ => (go "partial", some (go "exit status 1")),
    writeStderr := fun _ _ => none }

/-- A child that writes `partial` and fails; standard error is closed, so the
write of the diagnostic fails too. -/
def envFailClosed : Env :=
  { run := fun _ _ _ => (go "partial", some (go "exit status 1")),
    writeStderr := fun _ _ => some (go "write /dev/stderr: file already closed") }

/-- A child that succeeds and writes bytes that are not JSON. -/
def envOops : Env :=
  { run := fun _ _ _ => (go "oops", none), writeStderr := fun _ _ => none }

/-- Two runs: the first child writes the JSON object of a confirmed dialog, every
later child writes bytes that are not JSON; all succeed. -/
def envThenOops : Env :=
  { run := fun tr _ _ =>
      if tr = [] then (go "\x7b\"code\":-1,\"text\":\"yes\"\x7d", none) else (go "oops", none),
    writeStderr := fun _ _ => none }

/-- The message `TermuxDialogText` passes to `log.Fatalln` (funcio.go:161). -/
def usageText : GoString :=
  go "Cannot use multilines with input numbers (see wiki.termux.com/wiki/Termux-dialog)"

/-- The state in which a call ended. -/
def Res.state {α : Type} : Res α → State
  | .ret _ s => s
  | .exit s => s

/-- The call returned. -/
def Res.returned {α : Type} : Res α → Bool
  | .ret _ _ => true
  | .exit _ => false

/-- The message `ExecAndListen` passes to `log.Fatalln` (funcio.go:397). -/
def fatalText (e2 : GoString) : GoString :=
  go "I really don't know how you done this. But you did. " ++ e2

/-- A decimal digit as a byte of a Go string. -/
def IsDigit (b : UInt8) : Prop := 0x30 ≤ b ∧ b ≤ 0x39

/-! # Theorems -/

/-! ## The command executor -/

/-- What `ExecAndListen` does, by cases on the run and on the write. -/
theorem ExecAndListen_eq (command : GoString) (args : List GoString) (env : Env) (s : State) :
    ExecAndListen command args env s =
      match (env.run s.trace command args).2 with
      | none => .ret (env.run s.trace command args).1
          { s with trace := s.trace ++ [.exec command args] }
      | some e =>
        match env.writeStderr (s.trace ++ [.exec command args]) e with
        | none => .ret (env.run s.trace command args).1
            { s with trace := s.trace ++ [.exec command args, .stderr e] }
        | some e2 => .exit
            { s with trace := s.trace ++ [.exec command args, .stderr e, .log (fatalText e2)] } := by
  obtain ⟨run, write⟩ := env
  simp only [ExecAndListen, bind, M.bind, cmdRun, stderrWriteString, pure, M.pure, logFatalln,
    fatalText]
  rcases hr : run s.trace command args with ⟨out, err⟩
  cases err with
  | none => simp [M.bind, M.pure]
  | some e =>
    simp only [M.bind, stderrWriteString]
    cases hw : write (s.trace ++ [.exec command args]) e <;> simp [hw, M.bind, M.pure, logFatalln]

/-- C1: in every outcome in which `ExecAndListen` returns, the value returned is
exactly the bytes the child wrote to standard output, whether or not the run
reported an error; and it does return them when the run succeeds and when the
run fails with the diagnostic written. -/
theorem ExecAndListen_returns_stdout (command : GoString) (args : List GoString)
    (env : Env) (s : State) :
    (∀ v s1, ExecAndListen command args env s = .ret v s1 →
        v = (env.run s.trace command args).1) ∧
    ((env.run s.trace command args).2 = none →
        ∃ s1, ExecAndListen command args env s = .ret (env.run s.trace command args).1 s1) ∧
    (∀ e, (env.run s.trace command args).2 = some e →
        env.writeStderr (s.trace ++ [.exec command args]) e = none →
        ∃ s1, ExecAndListen command args env s = .ret (env.run s.trace command args).1 s1) := by
  rw [ExecAndListen_eq]
  refine ⟨?_, ?_, ?_⟩
  · intro v s1 h
    cases hr : (env.run s.trace command args).2 with
    | none => rw [hr] at h; simp only [Res.ret.injEq] at h; exact h.1.symm
    | some e =>
      rw [hr] at h
      cases hw : env.writeStderr (s.trace ++ [.exec command args]) e with
      | none => simp only [hw, Res.ret.injEq] at h; exact h.1.symm
      | some e2 => simp [hw] at h
  · intro hr
    rw [hr]
    exact ⟨_, rfl⟩
  · intro e hr hw
    rw [hr]
    simp only [hw]
    exact ⟨_, rfl⟩

/-- Witness of C1: a child that writes `partial` and fails; the value returned
is `partial`. -/
theorem ExecAndListen_returns_stdout_witness :
    ExecAndListen (go "false") [] envFail State.init =
      .ret (go "partial") ⟨TResult.zero, [.exec (go "false") [], .stderr (go "exit status 1")]⟩ ∧
    go "partial" = (envFail.run State.init.trace (go "false") []).1 :=
  ⟨by decide,
   (ExecAndListen_returns_stdout (go "false") [] envFail State.init).1 (go "partial")
     ⟨TResult.zero, [.exec (go "false") [], .stderr (go "exit status 1")]⟩ (by decide)⟩

/-- Counterexample to C2: the run reports an error and the write of the
diagnostic fails; `ExecAndListen` ends the process instead of returning. -/
theorem ExecAndListen_exits_on_failed_write :
    (envFailClosed.run State.init.trace (go "false") []).2 = some (go "exit status 1") ∧
    ExecAndListen (go "false") [] envFailClosed State.init =
      .exit ⟨TResult.zero,
        [.exec (go "false") [], .stderr (go "exit status 1"),
         .log (fatalText (go "write /dev/stderr: file already closed"))]⟩ := by
  decide

/-- C2, amended: when the run reports an error `e` and the write of the
diagnostic succeeds, `ExecAndListen` returns the captured output, having made
the one run and written the one diagnostic `e`; when the write fails it logs
and ends the process. -/
theorem ExecAndListen_run_error (command : GoString) (args : List GoString)
    (env : Env) (s : State) (e : GoString)
    (hrun : (env.run s.trace command args).2 = some e) :
    (env.writeStderr (s.trace ++ [.exec command args]) e = none →
      ExecAndListen command args env s =
        .ret (env.run s.trace command args).1
          { s with trace := s.trace ++ [.exec command args, .stderr e] }) ∧
    (∀ e2, env.writeStderr (s.trace ++ [.exec command args]) e = some e2 →
      ExecAndListen command args env s =
        .exit { s with trace := s.trace ++
          [.exec command args, .stderr e, .log (fatalText e2)] }) := by
  rw [ExecAndListen_eq, hrun]
  constructor
  · intro hw
    simp only [hw]
  · intro e2 hw
    simp only [hw]

/-- Witness of C2, amended: `false` fails, the diagnostic is written, the
captured output is returned. -/
theorem ExecAndListen_run_error_witness :
    (envFail.run State.init.trace (go "false") []).2 = some (go "exit status 1") ∧
    ExecAndListen (go "false") [] envFail State.init =
      .ret (envFail.run State.init.trace (go "false") []).1
        { State.init with trace := State.init.trace ++
            [.exec (go "false") [], .stderr (go "exit status 1")] } :=
  ⟨by decide,
   (ExecAndListen_run_error (go "false") [] envFail State.init (go "exit status 1")
      (by decide)).1 (by decide)⟩

/-! ## Comma-joined lists -/

/-- The separator the wrappers join with is the single byte `,`. -/
theorem go_comma : go "," = [0x2C] := by decide

/-- Joining two or more elements: the first, the separator, the rest joined. -/
theorem Join_cons_cons (e e2 : GoString) (rest : List GoString) (sep : GoString) :
    Join (e :: e2 :: rest) sep = e ++ sep ++ Join (e2 :: rest) sep := by
  cases rest with
  | nil => simp [Join]
  | cons e3 rest => simp [Join]

/-- Splitting on a byte: a piece free of the byte runs up to the end of input. -/
theorem splitLoop_no_sep (x : UInt8) (s cur : GoString) (hs : x ∉ s) :
    splitLoop [x] 0 cur s = [cur.reverse ++ s] := by
  induction s generalizing cur with
  | nil => simp [splitLoop]
  | cons c rest ih =>
    have hc : x ≠ c := fun h => hs (h ▸ List.mem_cons_self _ _)
    have hrest : x ∉ rest := fun h => hs (List.mem_cons_of_mem _ h)
    have hp : List.isPrefixOf [x] (c :: rest) = false := by simp [List.isPrefixOf, hc]
    simp only [splitLoop, hp]
    rw [if_neg (by simp), ih _ hrest]
    simp

/-- Splitting on a byte: a piece free of the byte ends at its first occurrence. -/
theorem splitLoop_sep (x : UInt8) (s t cur : GoString) (hs : x ∉ s) :
    splitLoop [x] 0 cur (s ++ x :: t) = (cur.reverse ++ s) :: splitLoop [x] 0 [] t := by
  induction s generalizing cur with
  | nil => simp [splitLoop, List.isPrefixOf]
  | cons c rest ih =>
    have hc : x ≠ c := fun h => hs (h ▸ List.mem_cons_self _ _)
    have hrest : x ∉ rest := fun h => hs (List.mem_cons_of_mem _ h)
    have hp : List.isPrefixOf [x] (c :: (rest ++ x :: t)) = false := by
      simp [List.isPrefixOf, hc]
    rw [List.cons_append]
    simp only [splitLoop, hp]
    rw [if_neg (by simp), ih _ hrest]
    simp

/-- Split after Join on a byte that no element contains gives the elements
back, for a list that is not empty. -/
theorem Split_Join_byte (x : UInt8) (e : GoString) (rest : List GoString)
    (h : ∀ v ∈ e :: rest, x ∉ v) : Split (Join (e :: rest) [x]) [x] = e :: rest := by
  induction rest generalizing e with
  | nil =>
    simpa [Join, Split] using splitLoop_no_sep x e [] (h e (List.mem_cons_self _ _))
  | cons e2 rest ih =>
    have he : x ∉ e := h e (List.mem_cons_self _ _)
    have h2 : ∀ v ∈ e2 :: rest, x ∉ v := fun v hv => h v (List.mem_cons_of_mem _ hv)
    have ih2 := ih e2 h2
    unfold Split at ih2 ⊢
    rw [Join_cons_cons, List.append_assoc, List.singleton_append, splitLoop_sep x e _ [] he, ih2]
    simp

/-- Counterexample to C6: the empty list is joined to the empty string, and
splitting the empty string on the comma gives one empty string, not the empty
list. -/
theorem Split_Join_empty_list :
    (∀ v ∈ ([] : List GoString), (0x2C : UInt8) ∉ v) ∧
    Split (Join [] (go ",")) (go ",") = [[]] ∧
    Split (Join [] (go ",")) (go ",") ≠ [] := by
  decide

/-- C6, amended: for every list of strings that is not empty and none of whose
elements contains a comma, splitting on the comma the value passed after `-v`
(`strings.Join(values, ",")`) gives the list back, in order. -/
theorem Split_Join_comma (values : List GoString) (hne : values ≠ [])
    (h : ∀ v ∈ values, (0x2C : UInt8) ∉ v) :
    Split (Join values (go ",")) (go ",") = values := by
  cases values with
  | nil => exact absurd rfl hne
  | cons e rest => rw [go_comma]; exact Split_Join_byte 0x2C e rest h

/-- Witness of C6, amended: the list `["a", "", "b c"]`. -/
theorem Split_Join_comma_witness :
    Split (Join [go "a", go "", go "b c"] (go ",")) (go ",") = [go "a", go "", go "b c"] :=
  Split_Join_comma [go "a", go "", go "b c"] (by decide) (by decide)

/-! ## Decimal digits -/

/-- The ten digit characters. -/
theorem digitChar_mem (m : Nat) (hm : m < 10) :
    Nat.digitChar m ∈ ['0', '1', '2', '3', '4', '5', '6', '7', '8', '9'] := by
  revert m
  decide

/-- Every character `Nat.toDigitsCore` puts in front of the accumulator is a digit. -/
theorem toDigitsCore_digits (fuel : Nat) : ∀ (n : Nat) (acc : List Char),
    (∀ c ∈ acc, c ∈ ['0', '1', '2', '3', '4', '5', '6', '7', '8', '9']) →
    ∀ c ∈ Nat.toDigitsCore 10 fuel n acc,
      c ∈ ['0', '1', '2', '3', '4', '5', '6', '7', '8', '9'] := by
  induction fuel with
  | zero => intro n acc hacc c hc; exact hacc c (by simpa [Nat.toDigitsCore] using hc)
  | succ fuel ih =>
    intro n acc hacc c hc
    have hacc2 : ∀ c ∈ Nat.digitChar (n % 10) :: acc,
        c ∈ ['0', '1', '2', '3', '4', '5', '6', '7', '8', '9'] := by
      intro d hd
      rcases List.mem_cons.mp hd with rfl | hd
      · exact digitChar_mem _ (Nat.mod_lt _ (by decide))
      · exact hacc d hd
    simp only [Nat.toDigitsCore] at hc
    split at hc
    · exact hacc2 c hc
    · exact ih _ _ hacc2 c hc

/-- The UTF-8 encoding of a digit character is one digit byte. -/
theorem utf8_digit : ∀ c ∈ ['0', '1', '2', '3', '4', '5', '6', '7', '8', '9'],
    ∀ b ∈ String.utf8EncodeChar c, (0x30 : UInt8) ≤ b ∧ b ≤ 0x39 := by
  decide

/-- Every byte of `FormatUint n` is a decimal digit. -/
theorem FormatUint_digits (n : Nat) : ∀ b ∈ FormatUint n, IsDigit b := by
  intro b hb
  simp only [FormatUint, go, Nat.repr, List.asString, List.mem_flatMap] at hb
  obtain ⟨c, hc, hbc⟩ := hb
  exact utf8_digit c (toDigitsCore_digits (n + 1) n [] (by simp) c hc) b hbc

/-! ## The infrared pattern -/

/-- Replacing a single byte: every occurrence becomes `new`, the other bytes stay. -/
theorem replaceLoop_byte (x : UInt8) (new s : GoString) :
    replaceLoop [x] new 0 s = s.flatMap (fun b => if b = x then new else [b]) := by
  induction s with
  | nil => simp [replaceLoop]
  | cons c rest ih =>
    by_cases hc : x = c
    · subst hc
      simp [replaceLoop, List.isPrefixOf, ih]
    · have hc2 : ¬ c = x := fun h => hc h.symm
      have hp : List.isPrefixOf [x] (c :: rest) = false := by simp [List.isPrefixOf, hc]
      simp only [replaceLoop, hp]
      rw [if_neg (by simp), ih]
      simp [hc2]

/-- Replacing a byte in a string that does not contain it changes nothing. -/
theorem flatMap_replace_absent (x : UInt8) (new s : GoString) (hs : x ∉ s) :
    s.flatMap (fun b => if b = x then new else [b]) = s := by
  induction s with
  | nil => rfl
  | cons c rest ih =>
    have hc : ¬ c = x := fun h => hs (h ▸ List.mem_cons_self _ _)
    have hrest : x ∉ rest := fun h => hs (List.mem_cons_of_mem _ h)
    simp [hc, ih hrest]

/-- A digit is not the space. -/
theorem space_not_mem_FormatUint (n : Nat) : (0x20 : UInt8) ∉ FormatUint n := by
  intro h
  have hd := FormatUint_digits n _ h
  revert hd
  simp only [IsDigit]
  decide

/-- The elements after the first, as `fmt` prints them. -/
theorem sprintElems_false (ts : List Nat) :
    sprintElems false ts = ts.flatMap (fun n => go " " ++ FormatUint n) := by
  induction ts with
  | nil => rfl
  | cons n rest ih => simp [sprintElems, ih]

/-- The elements as `fmt` prints them, with every space replaced by a comma,
are the decimals joined by commas. -/
theorem replace_sprintElems (ts : List Nat) :
    (sprintElems true ts).flatMap (fun b => if b = 0x20 then go "," else [b]) =
      Join (ts.map FormatUint) (go ",") := by
  have hf : ∀ rest : List Nat,
      (rest.flatMap (fun n => go " " ++ FormatUint n)).flatMap
          (fun b => if b = 0x20 then go "," else [b]) =
        (rest.map FormatUint).flatMap (fun s => go "," ++ s) := by
    intro rest
    induction rest with
    | nil => rfl
    | cons n rest ih =>
      have hsp : (go " ").flatMap (fun b => if b = 0x20 then go "," else [b]) = go "," := by
        decide
      rw [List.flatMap_cons, List.flatMap_append, List.flatMap_append, ih,
        flatMap_replace_absent _ _ _ (space_not_mem_FormatUint n), hsp, List.map_cons,
        List.flatMap_cons, List.append_assoc]
  cases ts with
  | nil => rfl
  | cons n rest =>
    have hj : Join ((n :: rest).map FormatUint) (go ",") =
        FormatUint n ++ (rest.map FormatUint).flatMap (fun s => go "," ++ s) := by
      cases rest <;> simp [Join]
    rw [hj, ← hf rest, sprintElems, sprintElems_false]
    simp [flatMap_replace_absent _ _ _ (space_not_mem_FormatUint n)]

/-- Trimming a string that has one cutset byte at each end and none in between
leaves what is in between. -/
theorem Trim_bracketed (cutset s : GoString) (l r : UInt8) (hl : l ∈ cutset) (hr : r ∈ cutset)
    (hs : ∀ b ∈ s, b ∉ cutset) : Trim (l :: s ++ [r]) cutset = s := by
  unfold Trim
  rw [List.cons_append, List.dropWhile_cons_of_pos (by simpa using hl)]
  cases s with
  | nil => simp [hr]
  | cons a rest =>
    have ha : a ∉ cutset := hs a (List.mem_cons_self _ _)
    rw [List.cons_append, List.dropWhile_cons_of_neg (by simpa using ha)]
    have hrev : (a :: (rest ++ [r])).reverse = r :: (a :: rest).reverse := by simp
    rw [hrev, List.dropWhile_cons_of_pos (by simpa using hr)]
    have hstop : ((a :: rest).reverse).dropWhile (fun b => decide (b ∈ cutset)) =
        (a :: rest).reverse := by
      cases hrv : (a :: rest).reverse with
      | nil => rfl
      | cons z zs =>
        have hz : z ∈ a :: rest := List.mem_reverse.mp (hrv ▸ List.mem_cons_self _ _)
        exact List.dropWhile_cons_of_neg (by simpa using hs z hz)
    rw [hstop, List.reverse_reverse]

/-- The decimals joined by commas hold no square bracket. -/
theorem Join_FormatUint_no_bracket (ts : List Nat) :
    ∀ b ∈ Join (ts.map FormatUint) (go ","), b ∉ go "[]" := by
  have hd : ∀ n : Nat, ∀ b ∈ FormatUint n, b ∉ go "[]" := by
    intro n b hb
    have h := FormatUint_digits n b hb
    have hgo : go "[]" = [0x5B, 0x5D] := by decide
    rw [hgo]
    intro hmem
    simp only [List.mem_cons, List.mem_singleton, List.not_mem_nil, or_false] at hmem
    rcases hmem with rfl | rfl <;> exact absurd h (by simp only [IsDigit]; decide)
  intro b hb
  cases ts with
  | nil => simp [Join] at hb
  | cons n rest =>
    have hj : Join ((n :: rest).map FormatUint) (go ",") =
        FormatUint n ++ (rest.map FormatUint).flatMap (fun s => go "," ++ s) := by
      cases rest <;> simp [Join]
    rw [hj] at hb
    rcases List.mem_append.mp hb with hb | hb
    · exact hd n b hb
    · obtain ⟨t, ht, hbt⟩ := List.mem_flatMap.mp hb
      obtain ⟨m, _, rfl⟩ := List.mem_map.mp ht
      rcases List.mem_append.mp hbt with hc | hm
      · have hcomma : go "," = [0x2C] := by decide
        rw [hcomma, List.mem_singleton] at hc
        subst hc
        decide
      · exact hd m b hm

/-- The value passed after `-f` is the decimals of the timings joined by commas. -/
theorem TermuxInfraredTransmit_values_eq (timings : List Nat) :
    TermuxInfraredTransmit.values timings = Join (timings.map FormatUint) (go ",") := by
  have hsp : go " " = [0x20] := by decide
  have hlb : go "[" = [0x5B] := by decide
  have hrb : go "]" = [0x5D] := by decide
  unfold TermuxInfraredTransmit.values Replace Sprint
  rw [hsp, replaceLoop_byte, hlb, hrb, List.flatMap_append, List.flatMap_append,
    replace_sprintElems]
  have h1 : ([0x5B] : GoString).flatMap (fun b => if b = 0x20 then go "," else [b]) = [0x5B] := by
    decide
  have h2 : ([0x5D] : GoString).flatMap (fun b => if b = 0x20 then go "," else [b]) = [0x5D] := by
    decide
  rw [h1, h2]
  exact Trim_bracketed _ _ 0x5B 0x5D (by decide) (by decide) (Join_FormatUint_no_bracket timings)

/-- Returning what a computation returned is that computation. -/
theorem M.bind_pure_self {α : Type} (m : M α) : m.bind M.pure = m := by
  funext env s
  simp only [M.bind, M.pure]
  cases m env s <;> rfl

/-- C8: the value `TermuxInfraredTransmit` passes after `-f` is the decimal
representations of the timings, in order, joined by single commas (for
`[1 2 3 4 5]` it is `1,2,3,4,5`, for the empty list the empty string), and the
call it makes is `termux-infrared-transmit` with the argument list `-f`, that
value. -/
theorem TermuxInfraredTransmit_args (timings : List Nat) :
    TermuxInfraredTransmit.values timings =
      Join (timings.map (fun n => go (Nat.repr n))) (go ",") ∧
    TermuxInfraredTransmit timings =
      ExecAndListen (go "termux-infrared-transmit")
        [go "-f", Join (timings.map (fun n => go (Nat.repr n))) (go ",")] ∧
    TermuxInfraredTransmit.values [1, 2, 3, 4, 5] = go "1,2,3,4,5" ∧
    TermuxInfraredTransmit.values [] = go "" := by
  have hv := TermuxInfraredTransmit_values_eq timings
  have hf : (fun n => go (Nat.repr n)) = FormatUint := rfl
  refine ⟨by rw [hf]; exact hv, ?_, by decide, by decide⟩
  rw [hf, ← hv]
  exact M.bind_pure_self _

/-! ## Vibration and sharing -/

/-- C9, the code at durations 1000, 50 and 0: the argument after `-t` is the
UTF-8 encoding of the code point with that number (`Ϩ`, `2`, a zero byte), not
the decimal representation. -/
theorem TermuxVibrate_duration_as_rune :
    TermuxVibrate ⟨1000, false⟩ envEcho State.init =
      .ret () ⟨TResult.zero, [.exec (go "termux-vibrate") [go "-t", [0xCF, 0xA8]]]⟩ ∧
    FormatInt 1000 = go "1000" ∧
    TermuxVibrate.command ⟨1000, false⟩ ≠ [go "-t", FormatInt 1000] ∧
    TermuxVibrate.command ⟨50, true⟩ = [go "-t", go "2", go "-f"] ∧
    TermuxVibrate.command ⟨0, false⟩ = [go "-t", [0x00]] := by
  decide

/-- The argument list of `TermuxShare` for the three action constants. -/
theorem TermuxShare_command_constants (t : TShare)
    (h : t.Action = TShareView ∨ t.Action = TShareEdit ∨ t.Action = TShareSend) :
    TermuxShare.command t =
      [go "-a", if t.Action = TShareView then go "view"
                else if t.Action = TShareEdit then go "edit" else go "send"] ++
      (if t.Default = true then [go "-d"] else []) ++
      (if t.Title ≠ [] then [go "-t", t.Title] else []) := by
  obtain ⟨action, dflt, title⟩ := t
  simp only at h
  have h12 : TShareEdit ≠ TShareView := by decide
  have h13 : TShareSend ≠ TShareView := by decide
  have h23 : TShareSend ≠ TShareEdit := by decide
  rcases h with rfl | rfl | rfl <;> cases dflt <;> by_cases ht : title = [] <;>
    simp [TermuxShare.command, ht, h12, h13, h23]

/-- C10, the code at `ShareAction(3)`: no action word is appended, so the
argument list is `-a -d` and the argument directly after `-a` is `-d`. -/
theorem TermuxShare_action_3 :
    TermuxShare ⟨3, true, []⟩ envEcho State.init =
      .ret (go "hello\n") ⟨TResult.zero, [.exec (go "termux-share") [go "-a", go "-d"]]⟩ ∧
    TermuxShare.command ⟨3, false, go "x"⟩ = [go "-a", go "-t", go "x"] ∧
    TermuxShare.command ⟨255, false, []⟩ = [go "-a"] := by
  decide

/-! ## The text dialog -/

/-- Events that are not runs leave the list of runs as it is. -/
theorem execCalls_append (l1 l2 : List Event) :
    execCalls (l1 ++ l2) = execCalls l1 ++ execCalls l2 := by
  induction l1 with
  | nil => rfl
  | cons e rest ih => cases e <;> simp [execCalls, ih]

/-- The rejected text dialog: the usage error is logged and the process ends. -/
theorem TermuxDialogText_exit (unmarshal : Unmarshal TResult) (td : TDialogText)
    (env : Env) (s : State) (hm : td.MultipleLine = true) (hn : td.NumberInput = true) :
    TermuxDialogText unmarshal td env s =
      .exit { s with trace := s.trace ++ [.log usageText] } := by
  simp [TermuxDialogText, hm, hn, bind, M.bind, logFatalln, usageText]

/-- C5: with `MultipleLine` and `NumberInput` both true, whatever the hint, the
title, the decoder, the environment and the state left by earlier calls,
`TermuxDialogText` logs the usage error and ends the process, and no child
process has been run by the call. -/
theorem TermuxDialogText_conflict (unmarshal : Unmarshal TResult) (td : TDialogText)
    (env : Env) (s : State) (hm : td.MultipleLine = true) (hn : td.NumberInput = true) :
    TermuxDialogText unmarshal td env s =
      .exit { s with trace := s.trace ++ [.log usageText] } ∧
    execCalls (s.trace ++ [.log usageText]) = execCalls s.trace := by
  constructor
  · exact TermuxDialogText_exit unmarshal td env s hm hn
  · simp [execCalls_append, execCalls]

/-- Witness of C5: both options set, after an earlier dialog call. -/
theorem TermuxDialogText_conflict_witness :
    TermuxDialogText unmarshalTResult ⟨go "hint", go "title", true, true⟩ envEcho
        ⟨⟨-1, go "yes", []⟩, [.exec TD [go "-t", go "earlier"]]⟩ =
      .exit ⟨⟨-1, go "yes", []⟩, [.exec TD [go "-t", go "earlier"], .log usageText]⟩ :=
  (TermuxDialogText_conflict unmarshalTResult ⟨go "hint", go "title", true, true⟩ envEcho
    ⟨⟨-1, go "yes", []⟩, [.exec TD [go "-t", go "earlier"]]⟩ rfl rfl).1

/-! ## The shared result -/

/-- Every dialog wrapper, when the run succeeds with output `out` and the decoder
rejects `out` leaving its target as it was, logs the error and returns the
`RT` of before the call: the zero value only if no earlier call changed it. -/
theorem dialog_decode_failure_returns_RT (unmarshal : Unmarshal TResult) (env : Env) (s : State)
    (out : Bytes) (e : GoString)
    (hrun : ∀ command args, env.run s.trace command args = (out, none))
    (hdec : unmarshal out s.RT = (s.RT, some e)) :
    (∀ title, ∃ args, TermuxDialog unmarshal title env s =
      .ret s.RT { s with trace := s.trace ++ [.exec TD args, .log e] }) ∧
    (∀ td, ∃ args, TermuxDialogConfirm unmarshal td env s =
      .ret s.RT { s with trace := s.trace ++ [.exec TD args, .log e] }) ∧
    (∀ td, ∃ args, TermuxDialogCheckbox unmarshal td env s =
      .ret s.RT { s with trace := s.trace ++ [.exec TD args, .log e] }) ∧
    (∀ td, ∃ args, TermuxDialogCounter unmarshal td env s =
      .ret s.RT { s with trace := s.trace ++ [.exec TD args, .log e] }) ∧
    (∀ td, ∃ args, TermuxDialogRadio unmarshal td env s =
      .ret s.RT { s with trace := s.trace ++ [.exec TD args, .log e] }) ∧
    (∀ td, ∃ args, TermuxDialogSheet unmarshal td env s =
      .ret s.RT { s with trace := s.trace ++ [.exec TD args, .log e] }) ∧
    (∀ td, ∃ args, TermuxDialogSpinner unmarshal td env s =
      .ret s.RT { s with trace := s.trace ++ [.exec TD args, .log e] }) ∧
    (∀ td, ∃ args, TermuxDialogSpeech unmarshal td env s =
      .ret s.RT { s with trace := s.trace ++ [.exec TD args, .log e] }) ∧
    (∀ td : TDialogText, (td.MultipleLine && td.NumberInput) = false →
      ∃ args, TermuxDialogText unmarshal td env s =
        .ret s.RT { s with trace := s.trace ++ [.exec TD args, .log e] }) ∧
    (∀ td, ∃ args, TermuxDialogTime unmarshal td env s =
      .ret s.RT { s with trace := s.trace ++ [.exec TD args, .log e] }) := by
  have hE : ∀ args, ExecAndListen TD args env s =
      .ret out { s with trace := s.trace ++ [.exec TD args] } := by
    intro args
    rw [ExecAndListen_eq, hrun]
  refine ⟨?_, ?_, ?_, ?_, ?_, ?_, ?_, ?_, ?_, ?_⟩
  · intro x
    constructor
    simp only [TermuxDialog, bind, M.bind, hE, unmarshalRT, hdec, logPrintln, emit, readRT]
    rw [List.append_assoc]
    rfl
  · intro x
    constructor
    simp only [TermuxDialogConfirm, bind, M.bind, hE, unmarshalRT, hdec, logPrintln, emit, readRT]
    rw [List.append_assoc]
    rfl
  · intro x
    constructor
    simp only [TermuxDialogCheckbox, bind, M.bind, hE, unmarshalRT, hdec, logPrintln, emit, readRT]
    rw [List.append_assoc]
    rfl
  · intro x
    constructor
    simp only [TermuxDialogCounter, bind, M.bind, hE, unmarshalRT, hdec, logPrintln, emit, readRT]
    rw [List.append_assoc]
    rfl
  · intro x
    constructor
    simp only [TermuxDialogRadio, bind, M.bind, hE, unmarshalRT, hdec, logPrintln, emit, readRT]
    rw [List.append_assoc]
    rfl
  · intro x
    constructor
    simp only [TermuxDialogSheet, bind, M.bind, hE, unmarshalRT, hdec, logPrintln, emit, readRT]
    rw [List.append_assoc]
    rfl
  · intro x
    constructor
    simp only [TermuxDialogSpinner, bind, M.bind, hE, unmarshalRT, hdec, logPrintln, emit, readRT]
    rw [List.append_assoc]
    rfl
  · intro x
    constructor
    simp only [TermuxDialogSpeech, bind, M.bind, hE, unmarshalRT, hdec, logPrintln, emit, readRT]
    rw [List.append_assoc]
    rfl
  · intro td hx
    refine ⟨TermuxDialogText.command td, ?_⟩
    obtain ⟨hint, title, m, n⟩ := td
    cases m <;> cases n <;> simp at hx <;>
      simp [TermuxDialogText, bind, pure, M.pure, M.bind, hE, unmarshalRT, hdec, logPrintln,
        emit, readRT]
  · intro x
    constructor
    simp only [TermuxDialogTime, bind, M.bind, hE, unmarshalRT, hdec, logPrintln, emit, readRT]
    rw [List.append_assoc]
    rfl

/-- C3, the code after an earlier call: `TermuxDialogConfirm` decodes
`code -1, text yes` into `RT`; the next call, `TermuxDialog`, receives bytes
that are not JSON, logs the decode error and returns the `RT` of the earlier
call, not the zero value. -/
theorem TermuxDialog_returns_stale_RT :
    (unmarshalTResult (go "oops") TResult.zero).2 ≠ none ∧
    ((TermuxDialogConfirm unmarshalTResult ⟨go "sure?", go "Quit"⟩).bind
        (fun _ => TermuxDialog unmarshalTResult (go "Name"))) envThenOops State.init =
      .ret ⟨-1, go "yes", []⟩
        ⟨⟨-1, go "yes", []⟩,
         [.exec TD [go "confirm", go "-i", go "sure?", go "-t", go "Quit"],
          .exec TD [go "-t", go "Name"],
          .log (go "invalid character \x27o\x27 looking for beginning of value")]⟩ ∧
    (⟨-1, go "yes", []⟩ : TResult) ≠ TResult.zero := by
  decide

/-! ## Every wrapper: one run of its executable -/

/-- Sequencing after a return is the continuation at the value returned. -/
theorem M.pure_bind {α β : Type} (a : α) (f : α → M β) : (M.pure a).bind f = f a := rfl

/-- Dropping the value of a sequence drops the value of its second part. -/
theorem M.void_bind {α β : Type} (m : M α) (f : α → M β) :
    (m.bind f).void = m.bind (fun a => (f a).void) := by
  funext env s
  simp only [M.void, M.bind]
  cases m env s <;> rfl

/-- The shape of a wrapper call that is neither the rejected text dialog nor
the empty clipboard: one `ExecAndListen` of the wrapper's executable with the
wrapper's argument list, and then a step that runs no child process; the step returns, except that of
`TermuxBatteryStatus`. -/
theorem Call.run_shape {TBattery TCalls TLocationResult : Type}
    [Inhabited TBattery] [Inhabited TCalls] [Inhabited TLocationResult]
    (J : Decoders TBattery TCalls TLocationResult) (c : Call)
    (hx : c.conflicting = false) (hc : c.emptyClipboard = false) :
    ∃ k : Bytes → M Unit,
      c.run J = (ExecAndListen c.executable c.args).bind k ∧
      (∀ out env s1, execCalls (k out env s1).state.trace = execCalls s1.trace) ∧
      (c ≠ .BatteryStatus → ∀ out env s1, (k out env s1).returned = true) := by
  cases c
  case DialogText td =>
    have hg : (td.MultipleLine == true && td.NumberInput == true) = false := by
      simpa [Call.conflicting] using hx
    have hd : TermuxDialogText J.result td =
        (ExecAndListen TD (TermuxDialogText.command td)).bind (fun executed =>
          (unmarshalRT J.result executed).bind (fun err =>
            match err with
            | some e => (logPrintln e).bind (fun _ => readRT)
            | none => (M.pure ()).bind (fun _ => readRT))) := by
      unfold TermuxDialogText
      rw [hg]
      rfl
    have hrun : Call.run J (.DialogText td) =
        (ExecAndListen TD (TermuxDialogText.command td)).bind (fun executed =>
          ((unmarshalRT J.result executed).bind (fun err =>
            match err with
            | some e => (logPrintln e).bind (fun _ => readRT)
            | none => (M.pure ()).bind (fun _ => readRT))).void) := by
      rw [Call.run, hd]
      exact M.void_bind _ _
    refine ⟨_, hrun, ?_, ?_⟩
    · intro out env s1
      cases h : (J.result out s1.RT).2 <;>
        simp [h, M.void, M.bind, unmarshalRT, logPrintln, emit, readRT, M.pure,
          Res.state, execCalls_append, execCalls]
    · intro _ out env s1
      cases h : (J.result out s1.RT).2 <;>
        simp [h, M.void, M.bind, unmarshalRT, logPrintln, emit, readRT, M.pure, Res.returned]
  case ClipboardSet clip =>
    have hl : clip.Text.length > 0 := by
      cases ht : clip.Text with
      | nil => simp [Call.emptyClipboard, ht] at hc
      | cons b rest => simp
    have hrun : Call.run J (.ClipboardSet clip) =
        (ExecAndListen (go "termux-clipboard-set") [clip.Text]).bind (fun _ => M.pure ()) := by
      simp only [Call.run, TermuxClipboardSet, hl, ↓reduceIte]
      rfl
    refine ⟨_, hrun, ?_, ?_⟩
    · intro out env s1
      simp [M.pure, Res.state]
    · intro _ out env s1
      simp [M.pure, Res.returned]
  all_goals
    first
    | refine ⟨_, M.void_bind _ _, ?_, ?_⟩
    | refine ⟨_, rfl, ?_, ?_⟩
    · intro out env s1
      first
      | (simp [M.void, bind, M.bind, pure, M.pure, Res.state]; done)
      | (cases h : (J.result out s1.RT).2 <;>
          simp [h, M.void, bind, M.bind, unmarshalRT, logPrintln, emit, readRT, pure, M.pure,
            Res.state, execCalls_append, execCalls] <;> done)
      | (cases h : (J.battery out default).2 <;>
          simp [h, M.void, bind, M.bind, logFatalln, pure, M.pure,
            Res.state, execCalls_append, execCalls] <;> done)
      | (cases h : (J.calls out default).2 <;>
          simp [h, M.void, bind, M.bind, logPrintln, emit, pure, M.pure,
            Res.state, execCalls_append, execCalls] <;> done)
      | (cases h : (J.location out default).2 <;>
          simp [h, M.void, bind, M.bind, logPrintln, emit, pure, M.pure,
            Res.state, execCalls_append, execCalls])
    · intro hne out env s1
      first
      | exact absurd rfl hne
      | (simp [M.void, bind, M.bind, pure, M.pure, Res.returned]; done)
      | (cases h : (J.result out s1.RT).2 <;>
          simp [h, M.void, bind, M.bind, unmarshalRT, logPrintln, emit, readRT, pure, M.pure,
            Res.returned] <;> done)
      | (cases h : (J.calls out default).2 <;>
          simp [h, M.void, bind, M.bind, logPrintln, emit, pure, M.pure, Res.returned] <;> done)
      | (cases h : (J.location out default).2 <;>
          simp [h, M.void, bind, M.bind, logPrintln, emit, pure, M.pure, Res.returned])

/-- The runs recorded when `ExecAndListen` ends, returning or not: those
recorded before, and the one it made. -/
theorem ExecAndListen_execCalls (command : GoString) (args : List GoString)
    (env : Env) (s : State) :
    execCalls (ExecAndListen command args env s).state.trace =
      execCalls s.trace ++ [(command, args)] := by
  rw [ExecAndListen_eq]
  cases (env.run s.trace command args).2 with
  | none => simp [Res.state, execCalls_append, execCalls]
  | some e =>
    cases hw : env.writeStderr (s.trace ++ [.exec command args]) e <;>
      simp [hw, Res.state, execCalls_append, execCalls]

/-- Where the diagnostic of a failed run can be written, `ExecAndListen` returns. -/
theorem ExecAndListen_returned (command : GoString) (args : List GoString)
    (env : Env) (s : State)
    (hw : ∀ e, (env.run s.trace command args).2 = some e →
      env.writeStderr (s.trace ++ [.exec command args]) e = none) :
    (ExecAndListen command args env s).returned = true := by
  rw [ExecAndListen_eq]
  cases hr : (env.run s.trace command args).2 with
  | none => simp [Res.returned]
  | some e => simp [hw e hr, Res.returned]

/-- The rejected text dialog ends the process. -/
theorem Call.run_conflicting {TBattery TCalls TLocationResult : Type}
    [Inhabited TBattery] [Inhabited TCalls] [Inhabited TLocationResult]
    (J : Decoders TBattery TCalls TLocationResult) (c : Call) (env : Env) (s : State)
    (hx : c.conflicting = true) :
    c.run J env s = .exit { s with trace := s.trace ++ [.log usageText] } := by
  cases c <;> simp only [Call.conflicting, Bool.false_eq_true] at hx
  case DialogText td =>
    simp only [Bool.and_eq_true] at hx
    simp [Call.run, M.void, M.bind, TermuxDialogText_exit J.result td env s hx.1 hx.2]

/-- The empty clipboard is logged and nothing is run. -/
theorem Call.run_emptyClipboard {TBattery TCalls TLocationResult : Type}
    [Inhabited TBattery] [Inhabited TCalls] [Inhabited TLocationResult]
    (J : Decoders TBattery TCalls TLocationResult) (c : Call) (env : Env) (s : State)
    (hc : c.emptyClipboard = true) :
    c.run J env s =
      .ret () { s with trace := s.trace ++ [.log (go "Clipboard is empty!")] } := by
  cases c <;> simp only [Call.emptyClipboard, Bool.false_eq_true] at hc
  case ClipboardSet clip =>
    have ht : clip.Text = [] := by simpa using hc
    simp [Call.run, TermuxClipboardSet, ht, logPrintln, emit]

/-- Counterexample to C7: `TermuxClipboardSet` with an empty `Text` returns
after logging, and has run no child process. -/
theorem TermuxClipboardSet_empty_no_exec :
    TermuxClipboardSet ⟨go ""⟩ envEcho State.init =
      .ret () ⟨TResult.zero, [.log (go "Clipboard is empty!")]⟩ ∧
    execCalls [.log (go "Clipboard is empty!")] = [] := by
  decide

/-- C7, amended: a wrapper call that returns has run exactly one child process,
the executable named in the source of that wrapper, except
`TermuxClipboardSet` with an empty `Text`, which has run none. -/
theorem wrapper_runs_one_executable {TBattery TCalls TLocationResult : Type}
    [Inhabited TBattery] [Inhabited TCalls] [Inhabited TLocationResult]
    (J : Decoders TBattery TCalls TLocationResult) (c : Call) (env : Env) (s s1 : State)
    (h : c.run J env s = .ret () s1) :
    (c.emptyClipboard = false →
      (execCalls s1.trace).map Prod.fst = (execCalls s.trace).map Prod.fst ++ [c.executable]) ∧
    (c.emptyClipboard = true → execCalls s1.trace = execCalls s.trace) := by
  constructor
  · intro hc
    have hx : c.conflicting = false := by
      cases hcf : c.conflicting with
      | false => rfl
      | true => rw [Call.run_conflicting J c env s hcf] at h; cases h
    obtain ⟨k, hrun, hk, _⟩ := Call.run_shape J c hx hc
    have hE := ExecAndListen_execCalls c.executable c.args env s
    rw [hrun] at h
    simp only [M.bind] at h
    cases hr : ExecAndListen c.executable c.args env s with
    | exit s2 => rw [hr] at h; cases h
    | ret out s2 =>
      rw [hr] at h hE
      have hk2 := hk out env s2
      simp only at h
      rw [h] at hk2
      simp only [Res.state] at hk2 hE
      rw [hk2, hE]
      simp
  · intro hc
    rw [Call.run_emptyClipboard J c env s hc] at h
    cases h
    simp [execCalls_append, execCalls]

/-- Witness of C7, amended: `TermuxClipboardSet` with the text `text`. -/
theorem wrapper_runs_one_executable_witness :
    (execCalls [Event.exec (go "termux-clipboard-set") [go "text"]]).map Prod.fst =
      (execCalls State.init.trace).map Prod.fst ++ [go "termux-clipboard-set"] :=
  (wrapper_runs_one_executable sampleDecoders (.ClipboardSet ⟨go "text"⟩) envEcho State.init
    ⟨TResult.zero, [.exec (go "termux-clipboard-set") [go "text"]]⟩ (by decide)).1 (by decide)

/-! ## Which calls end the process -/

/-- C4, the code at `TermuxBatteryStatus` with a child that succeeds and writes
bytes that do not decode: the decode error goes to `log.Fatalln` and the
process ends, where `TermuxContactList` and `TermuxLocation`, given the same
bytes, log the error and return their record. -/
theorem TermuxBatteryStatus_exits_on_decode_error :
    (envOops.run State.init.trace (go "termux-battery-status") []).2 = none ∧
    (unmarshalReading (go "oops") default).2 =
      some (go "invalid character \x27o\x27 looking for beginning of value") ∧
    TermuxBatteryStatus unmarshalReading envOops State.init =
      .exit ⟨TResult.zero,
        [.exec (go "termux-battery-status") [],
         .log (go "invalid character \x27o\x27 looking for beginning of value")]⟩ ∧
    TermuxContactList unmarshalReading envOops State.init =
      .ret default ⟨TResult.zero,
        [.exec (go "termux-contact-list") [],
         .log (go "invalid character \x27o\x27 looking for beginning of value")]⟩ ∧
    TermuxLocation unmarshalReading ⟨go "gps", go "once"⟩ envOops State.init =
      .ret default ⟨TResult.zero,
        [.exec (go "termux-location") [go "-p", go "gps", go "-r", go "once"],
         .log (go "invalid character \x27o\x27 looking for beginning of value")]⟩ := by
  decide

/-- What `TermuxBatteryStatus` does, for every decoder, environment and state:
after the run, a decode error is logged and ends the process; without one the
record is returned. -/
theorem TermuxBatteryStatus_eq {TBattery : Type} [Inhabited TBattery]
    (unmarshal : Unmarshal TBattery) (env : Env) (s : State) :
    TermuxBatteryStatus unmarshal env s =
      match ExecAndListen (go "termux-battery-status") [] env s with
      | .exit s1 => .exit s1
      | .ret out s1 =>
        match (unmarshal out default).2 with
        | some e => .exit { s1 with trace := s1.trace ++ [.log e] }
        | none => .ret (unmarshal out default).1 s1 := by
  simp only [TermuxBatteryStatus, bind, M.bind]
  cases ExecAndListen (go "termux-battery-status") [] env s with
  | exit s1 => rfl
  | ret out s1 =>
    cases hd : (unmarshal out default).2 <;> simp [hd, M.bind, M.pure, pure, logFatalln]

/-- What `TermuxContactList` and `TermuxLocation` do, for every decoder: the run,
the decode into a fresh record, the log line of a decode error, the record
returned. -/
theorem local_wrappers_eq {T : Type} [Inhabited T] (unmarshal : Unmarshal T) :
    TermuxContactList unmarshal = localCall unmarshal (go "termux-contact-list") [] ∧
    (∀ location : TLocation, TermuxLocation unmarshal location =
      localCall unmarshal (go "termux-location")
        [go "-p", location.Provider, go "-r", location.Request]) := by
  refine ⟨?_, ?_⟩
  · funext env s
    simp only [TermuxContactList, localCall, bind, M.bind]
    cases ExecAndListen (go "termux-contact-list") [] env s with
    | exit s1 => rfl
    | ret out s1 =>
      cases hd : (unmarshal out default).2 <;>
        simp [hd, M.bind, M.pure, pure, logPrintln, emit, decodeLog]
  · intro location
    funext env s
    simp only [TermuxLocation, localCall, bind, M.bind]
    cases ExecAndListen (go "termux-location")
        [go "-p", location.Provider, go "-r", location.Request] env s with
    | exit s1 => rfl
    | ret out s1 =>
      cases hd : (unmarshal out default).2 <;>
        simp [hd, M.bind, M.pure, pure, logPrintln, emit, decodeLog]

/-- The tail every dialog wrapper shares, after a run that returned `out`. -/
theorem dialog_tail_eq (unmarshal : Unmarshal TResult) (out : Bytes) (env : Env) (s1 : State) :
    ((unmarshalRT unmarshal out).bind (fun err =>
        match err with
        | some e => (logPrintln e).bind (fun _ => readRT)
        | none => (M.pure ()).bind (fun _ => readRT))) env s1 =
      .ret (unmarshal out s1.RT).1
        { RT := (unmarshal out s1.RT).1,
          trace := s1.trace ++ decodeLog (unmarshal out s1.RT).2 } := by
  simp only [M.bind, unmarshalRT]
  cases hd : (unmarshal out s1.RT).2 <;> simp [M.bind, M.pure, logPrintln, emit, readRT, decodeLog]

/-- A run followed by the shared tail is `dialogCall`. -/
theorem dialogCall_eq (unmarshal : Unmarshal TResult) (args : List GoString) :
    (ExecAndListen TD args).bind (fun executed =>
      (unmarshalRT unmarshal executed).bind (fun err =>
        match err with
        | some e => (logPrintln e).bind (fun _ => readRT)
        | none => (M.pure ()).bind (fun _ => readRT))) = dialogCall unmarshal args := by
  funext env s
  simp only [M.bind, dialogCall]
  cases ExecAndListen TD args env s with
  | exit s1 => rfl
  | ret out s1 => exact dialog_tail_eq unmarshal out env s1

/-- What the ten dialog wrappers do, for every decoder: each is the run of
`termux-dialog` with its argument list, the decode into `RT`, the log line of a
decode error, and `RT` returned (`TermuxDialogText` when it does not reject its
input). -/
theorem dialog_wrappers_eq (unmarshal : Unmarshal TResult) :
    (∀ title, TermuxDialog unmarshal title = dialogCall unmarshal (Call.args (.Dialog title))) ∧
    (∀ td, TermuxDialogConfirm unmarshal td =
      dialogCall unmarshal (Call.args (.DialogConfirm td))) ∧
    (∀ td, TermuxDialogCheckbox unmarshal td =
      dialogCall unmarshal (Call.args (.DialogCheckbox td))) ∧
    (∀ td, TermuxDialogCounter unmarshal td =
      dialogCall unmarshal (Call.args (.DialogCounter td))) ∧
    (∀ td, TermuxDialogRadio unmarshal td = dialogCall unmarshal (Call.args (.DialogRadio td))) ∧
    (∀ td, TermuxDialogSheet unmarshal td = dialogCall unmarshal (Call.args (.DialogSheet td))) ∧
    (∀ td, TermuxDialogSpinner unmarshal td =
      dialogCall unmarshal (Call.args (.DialogSpinner td))) ∧
    (∀ td, TermuxDialogSpeech unmarshal td =
      dialogCall unmarshal (Call.args (.DialogSpeech td))) ∧
    (∀ td : TDialogText, (td.MultipleLine && td.NumberInput) = false →
      TermuxDialogText unmarshal td = dialogCall unmarshal (Call.args (.DialogText td))) ∧
    (∀ td, TermuxDialogTime unmarshal td = dialogCall unmarshal (Call.args (.DialogTime td))) := by
  refine ⟨?_, ?_, ?_, ?_, ?_, ?_, ?_, ?_, ?_, ?_⟩
  · intro x; exact dialogCall_eq unmarshal _
  · intro x; exact dialogCall_eq unmarshal _
  · intro x; exact dialogCall_eq unmarshal _
  · intro x; exact dialogCall_eq unmarshal _
  · intro x; exact dialogCall_eq unmarshal _
  · intro x; exact dialogCall_eq unmarshal _
  · intro x; exact dialogCall_eq unmarshal _
  · intro x; exact dialogCall_eq unmarshal _
  · intro td hx
    have hg : (td.MultipleLine == true && td.NumberInput == true) = false := by simpa using hx
    rw [← dialogCall_eq]
    unfold TermuxDialogText
    rw [hg]
    rfl
  · intro x; exact dialogCall_eq unmarshal _

/-- Every wrapper call other than the rejected text dialog and other than
`TermuxBatteryStatus` returns whenever its own `ExecAndListen` returns,
whatever bytes the command wrote. -/
theorem wrapper_returns {TBattery TCalls TLocationResult : Type}
    [Inhabited TBattery] [Inhabited TCalls] [Inhabited TLocationResult]
    (J : Decoders TBattery TCalls TLocationResult) (c : Call) (env : Env) (s : State)
    (hx : c.conflicting = false) (hb : c ≠ .BatteryStatus)
    (hE : (ExecAndListen c.executable c.args env s).returned = true) :
    (c.run J env s).returned = true := by
  cases hc : c.emptyClipboard with
  | true => rw [Call.run_emptyClipboard J c env s hc]; rfl
  | false =>
    obtain ⟨k, hrun, _, hk⟩ := Call.run_shape J c hx hc
    rw [hrun]
    simp only [M.bind]
    cases hr : ExecAndListen c.executable c.args env s with
    | exit s2 => rw [hr] at hE; cases hE
    | ret out s2 => exact hk hb out env s2

/-- A wrapper call ends the process where its `ExecAndListen` does: the child of
`TermuxContactList` fails while standard error is closed. -/
theorem TermuxContactList_exits_with_ExecAndListen :
    TermuxContactList unmarshalReading envFailClosed State.init =
      .exit ⟨TResult.zero,
        [.exec (go "termux-contact-list") [], .stderr (go "exit status 1"),
         .log (fatalText (go "write /dev/stderr: file already closed"))]⟩ := by
  decide

end Gotermux
